import Mathlib

/-!
Verification of the tuxedo-rs_mod hardware-control GUI (`tailor_gui`).

The Rust sources are shallowly embedded:

* machine integers (`u8`, `u64`, `usize`) become `ℕ`, with explicit
  `% 2 ^ 64` or saturating subtraction where the Rust code wraps or
  saturates;
* `f32` arithmetic is modelled as exact rational arithmetic over `ℚ`;
  the `f32::round` operation (round half away from zero) is modelled by
  `rustRound`, and the saturating `as u8` cast by `asU8`;
* fallible functions returning `anyhow::Result` become `Except String`
  values (the Rust functions bail before mutating `self`, so an `error`
  result leaves the caller's state unchanged, matching the embedding);
  the one exception is `load_profiles`, which in the source assigns
  `self.profiles` before validating, and is therefore embedded as a
  state-returning function paired with an optional error;
* filesystem interaction (`path.exists()`, `fs::write`) is modelled by
  an explicit filesystem valuation `Fs` of which paths are present and
  which writes fail, and functions that write sysfs nodes return the
  list of successful writes they performed;
* `HashMap<String, FanCurve>` becomes an association list; iteration
  order only affects error messages, never success or failure.
-/

/-- A point of a fan curve: `temp` in Celsius, `speed` a duty percentage.
Both fields are `u8` in the source. -/
structure FanCurvePoint where
  temp : ℕ
  speed : ℕ
deriving DecidableEq, Repr

/-- A fan curve, a sequence of points (the source keeps them in a `Vec`
and expects exactly 8). -/
structure FanCurve where
  points : List FanCurvePoint
deriving DecidableEq, Repr

/-- The strictly-ascending-temperatures loop of `FanCurve::validate`:
the source iterates `i in 1..len` and bails when
`points[i].temp <= points[i-1].temp`. -/
def ascendingOk : List FanCurvePoint → Bool
  | p :: q :: rest => decide (p.temp < q.temp) && ascendingOk (q :: rest)
  | _ => true

/-- Embedding of `FanCurve::validate` from `profile_system.rs`: exactly 8 points,
strictly ascending temperatures, all speeds at most 100. -/
def FanCurve.validate (c : FanCurve) : Except String Unit :=
  if c.points.length ≠ 8 then
    .error "Fan curve must have exactly 8 points"
  else if !ascendingOk c.points then
    .error "Fan curve temperatures must be in ascending order"
  else if !(c.points.all fun p => decide (p.speed ≤ 100)) then
    .error "Fan speed must be 0-100%"
  else
    .ok ()

/-- Model of `f32::round`: round half away from zero. On the nonnegative values
produced by the fan-speed interpolation it agrees with `round`. -/
def rustRound (q : ℚ) : ℤ :=
  if 0 ≤ q then round q else -round (-q)

/-- The saturating `as u8` cast applied to an integer-valued float. -/
def asU8 (z : ℤ) : ℕ :=
  (max 0 (min 255 z)).toNat

/-- The interpolation step in the bracketing branch of
`FanDaemon::calculate_fan_speed`:
`p1.speed + (p2.speed - p1.speed) * (temp - p1.temp) / (p2.temp - p1.temp)`
computed in `f32` (here: in `ℚ`), rounded, then cast to `u8`. -/
def interpolate (p1 p2 : FanCurvePoint) (temp : ℚ) : ℕ :=
  let temp_range : ℚ := (p2.temp : ℚ) - (p1.temp : ℚ)
  let speed_range : ℚ := (p2.speed : ℚ) - (p1.speed : ℚ)
  let temp_offset : ℚ := temp - (p1.temp : ℚ)
  asU8 (rustRound ((p1.speed : ℚ) + speed_range * (temp_offset / temp_range)))

/-- The bracket-search loop of `FanDaemon::calculate_fan_speed`:
`for i in 0..len-1`, return the interpolation at the first adjacent pair
with `p1.temp <= temp <= p2.temp`; `none` models falling through to the
trailing `return 50`. -/
def calcLoop (temp : ℚ) : List FanCurvePoint → Option ℕ
  | p :: q :: rest =>
    if (p.temp : ℚ) ≤ temp ∧ temp ≤ (q.temp : ℚ) then
      some (interpolate p q temp)
    else
      calcLoop temp (q :: rest)
  | _ => none

namespace FanDaemon

/-- Embedding of `FanDaemon::calculate_fan_speed` from `fan_daemon.rs`. The `[]` arm
models the index panic the Rust code would hit on an empty point list;
it is unreachable for the 8-point curves the claims quantify over. -/
def calculate_fan_speed (curve : FanCurve) (temp : ℚ) : ℕ :=
  match curve.points with
  | [] => 0
  | p :: ps =>
    if temp ≤ (p.temp : ℚ) then p.speed
    else if ((ps.getLastD p).temp : ℚ) ≤ temp then (ps.getLastD p).speed
    else (calcLoop temp (p :: ps)).getD 50

end FanDaemon

/-- The exact interpolation formula as the spec words it, as a rounded
integer: `p1.duty + (p2.duty - p1.duty) * (temp - p1.temp) / (p2.temp
- p1.temp)`, rounded to the nearest integer. -/
def specDuty (p1 p2 : FanCurvePoint) (temp : ℚ) : ℤ :=
  round ((p1.speed : ℚ) +
    ((p2.speed : ℚ) - (p1.speed : ℚ)) * ((temp - (p1.temp : ℚ)) / ((p2.temp : ℚ) - (p1.temp : ℚ))))

/-- The default 8-point fan curve from `Profile::default_profile`. -/
def defaultCurve : FanCurve :=
  ⟨[⟨40, 30⟩, ⟨50, 40⟩, ⟨60, 50⟩, ⟨65, 60⟩,
    ⟨70, 70⟩, ⟨75, 80⟩, ⟨80, 90⟩, ⟨85, 100⟩]⟩

/-- A cumulative `/proc/stat` sample; all fields are `u64` jiffie
counters in the source. -/
structure CpuStats where
  user : ℕ
  nice : ℕ
  system : ℕ
  idle : ℕ
  iowait : ℕ
  irq : ℕ
  softirq : ℕ
deriving DecidableEq, Repr

/-- Computes `idle + iowait`, as `u64` addition. -/
def CpuStats.idleAll (s : CpuStats) : ℕ :=
  (s.idle + s.iowait) % 2 ^ 64

/-- Computes `user + nice + system + (idle + iowait) + irq + softirq`, as `u64`
addition. -/
def CpuStats.totalAll (s : CpuStats) : ℕ :=
  (s.user + s.nice + s.system + s.idleAll + s.irq + s.softirq) % 2 ^ 64

/-- Computes `curr_total.saturating_sub(prev_total)`; `ℕ` subtraction is
saturating subtraction. -/
def totalDiff (prev curr : CpuStats) : ℕ :=
  curr.totalAll - prev.totalAll

/-- Computes `curr_idle.saturating_sub(prev_idle)`. -/
def idleDiff (prev curr : CpuStats) : ℕ :=
  curr.idleAll - prev.idleAll

namespace HardwareMonitor

/-- Embedding of `HardwareMonitor::calculate_cpu_load` from `hardware_monitor.rs`.
The numerator `total_diff - idle_diff` is plain (wrapping) `u64`
subtraction in the source, modelled by adding `2 ^ 64` and reducing;
the final `.min(100.0).max(0.0)` clamp is `max 0 (min 100 _)`. -/
def calculate_cpu_load (prev curr : CpuStats) : ℚ :=
  let td := totalDiff prev curr
  let idd := idleDiff prev curr
  if td = 0 then 0
  else
    let usage : ℚ := (((td + 2 ^ 64 - idd) % 2 ^ 64 : ℕ) : ℚ) / (td : ℚ)
    max 0 (min 100 (usage * 100))

end HardwareMonitor

/-- Embedding of `RGBColor` from `profile_system.rs`; fields are `u8`. -/
structure RGBColor where
  r : ℕ
  g : ℕ
  b : ℕ
deriving DecidableEq, Repr

/-- Embedding of `KeyboardBacklight` from `profile_system.rs`. -/
structure KeyboardBacklight where
  color : RGBColor
  brightness : ℕ
deriving DecidableEq, Repr

/-- Embedding of `CpuPerformanceProfile` from `profile_system.rs`. -/
inductive CpuPerformanceProfile where
  | PowerSave
  | Balanced
  | Performance
deriving DecidableEq, Repr

/-- Embedding of `CpuSettings` from `profile_system.rs`. -/
structure CpuSettings where
  performance_profile : CpuPerformanceProfile
  min_freq_mhz : Option ℕ
  max_freq_mhz : Option ℕ
  disable_boost : Bool
  smt_enabled : Bool
deriving DecidableEq, Repr

/-- Embedding of `ScreenSettings` from `profile_system.rs`. -/
structure ScreenSettings where
  brightness : ℕ
  auto_brightness : Bool
deriving DecidableEq, Repr

/-- Embedding of `Profile` from `profile_system.rs`; the fan-curve `HashMap` is an
association list `fan_id -> curve`. -/
structure Profile where
  name : String
  is_default : Bool
  keyboard_backlight : KeyboardBacklight
  fan_curves : List (String × FanCurve)
  cpu_settings : CpuSettings
  screen_settings : ScreenSettings
  auto_switch_enabled : Bool
  trigger_apps : List String
deriving DecidableEq, Repr

/-- The fan-curve loop of `Profile::validate`: validate each curve,
bailing at the first invalid one with its `fan_id` in the context. -/
def validateCurves : List (String × FanCurve) → Except String Unit
  | [] => .ok ()
  | (fid, c) :: rest =>
    match c.validate with
    | .error e => .error ("Invalid fan curve for " ++ fid ++ ": " ++ e)
    | .ok () => validateCurves rest

/-- Embedding of `Profile::validate` from `profile_system.rs`: all fan curves valid,
both brightness values at most 100. -/
def Profile.validate (p : Profile) : Except String Unit :=
  match validateCurves p.fan_curves with
  | .error e => .error e
  | .ok () =>
    if 100 < p.keyboard_backlight.brightness then
      .error "Keyboard brightness must be 0-100"
    else if 100 < p.screen_settings.brightness then
      .error "Screen brightness must be 0-100"
    else
      .ok ()

/-- Embedding of `Profile::default_profile` from `profile_system.rs`. -/
def Profile.default_profile : Profile :=
  { name := "Default"
    is_default := true
    keyboard_backlight := { color := { r := 255, g := 255, b := 255 }, brightness := 50 }
    fan_curves := [("fan1", defaultCurve), ("fan2", defaultCurve)]
    cpu_settings :=
      { performance_profile := .Balanced
        min_freq_mhz := none
        max_freq_mhz := none
        disable_boost := false
        smt_enabled := true }
    screen_settings := { brightness := 70, auto_brightness := false }
    auto_switch_enabled := false
    trigger_apps := [] }

/-- The in-memory state of `ProfileManager` (the `config_dir` path and
the on-disk file are not modelled; `save_profiles` is treated as
succeeding). -/
structure ProfileManager where
  profiles : List Profile
  active_profile_index : ℕ
deriving DecidableEq, Repr

/-- The validation loop of `ProfileManager::load_profiles`: the first
invalid profile yields the load error, with the profile name in the
context. -/
def firstProfileError : List Profile → Option String
  | [] => none
  | p :: rest =>
    match p.validate with
    | .error _ => some ("Invalid profile: " ++ p.name)
    | .ok () => firstProfileError rest

namespace ProfileManager

/-- Embedding of `ProfileManager::load_profiles`. Here `stored` is the parsed contents of
`profiles.json` (`none` when the file does not exist). The source
assigns `self.profiles = parsed` and only then validates, so the
returned state holds the parsed list even when an error is returned;
this embedding returns the mutated state together with the optional
error. -/
def load_profiles (m : ProfileManager) (stored : Option (List Profile)) :
    ProfileManager × Option String :=
  match stored with
  | none => (m, none)
  | some ps => ({ m with profiles := ps }, firstProfileError ps)

/-- Embedding of `ProfileManager::new`, with the parsed file contents as a
parameter: start from an empty list, load, and push the default profile
when the loaded list is empty. -/
def new (stored : Option (List Profile)) : Except String ProfileManager :=
  match load_profiles { profiles := [], active_profile_index := 0 } stored with
  | (_, some e) => .error e
  | (m, none) =>
    if m.profiles.isEmpty then
      .ok { m with profiles := [Profile.default_profile] }
    else
      .ok m

/-- Embedding of `ProfileManager::add_profile`: validate, require a fresh name, then
push. The source bails before mutating, so an `error` result leaves the
manager unchanged. -/
def add_profile (m : ProfileManager) (p : Profile) : Except String ProfileManager :=
  match p.validate with
  | .error e => .error ("Profile validation failed: " ++ e)
  | .ok () =>
    if m.profiles.any fun q => q.name == p.name then
      .error ("Profile with name already exists: " ++ p.name)
    else
      .ok { m with profiles := m.profiles ++ [p] }

/-- Embedding of `ProfileManager::update_profile`: bounds check, validate, then
replace the profile at `index`. -/
def update_profile (m : ProfileManager) (index : ℕ) (p : Profile) :
    Except String ProfileManager :=
  if index ≥ m.profiles.length then
    .error "Profile index out of bounds"
  else
    match p.validate with
    | .error e => .error ("Profile validation failed: " ++ e)
    | .ok () => .ok { m with profiles := m.profiles.set index p }

/-- Embedding of `ProfileManager::delete_profile`: bounds check, refuse to delete
the default-flagged profile, remove, and reset the active index to 0
when it falls out of range. -/
def delete_profile (m : ProfileManager) (index : ℕ) : Except String ProfileManager :=
  if h : index < m.profiles.length then
    if (m.profiles.get ⟨index, h⟩).is_default then
      .error "Cannot delete default profile"
    else
      let ps := m.profiles.eraseIdx index
      if m.active_profile_index ≥ ps.length then
        .ok { profiles := ps, active_profile_index := 0 }
      else
        .ok { m with profiles := ps }
  else
    .error "Profile index out of bounds"

/-- Embedding of `ProfileManager::set_active_profile`. -/
def set_active_profile (m : ProfileManager) (index : ℕ) : Except String ProfileManager :=
  if index ≥ m.profiles.length then
    .error "Profile index out of bounds"
  else
    .ok { m with active_profile_index := index }

/-- Embedding of `ProfileManager::get_active_profile`; the source indexes
`self.profiles[self.active_profile_index]`, which panics out of
bounds — modelled by `Option`. -/
def get_active_profile (m : ProfileManager) : Option Profile :=
  m.profiles.get? m.active_profile_index

/-- Lower-case a string character by character (modelling Rust
`str::to_lowercase` on the ASCII app and trigger names involved). -/
def lowerChars (s : String) : List Char :=
  s.toList.map Char.toLower

/-- The match predicate of `ProfileManager::find_profile_for_app`:
`auto_switch_enabled` and some trigger whose lowercase form is a
substring of the lowercase app name. -/
def triggerHit (app : String) (p : Profile) : Bool :=
  p.auto_switch_enabled && p.trigger_apps.any fun t => decide (lowerChars t <:+: lowerChars app)

/-- The `enumerate().find()` scan of `find_profile_for_app`. -/
def findFrom (app : String) : ℕ → List Profile → Option ℕ
  | _, [] => none
  | i, p :: rest => if triggerHit app p then some i else findFrom app (i + 1) rest

/-- Embedding of `ProfileManager::find_profile_for_app`. -/
def find_profile_for_app (m : ProfileManager) (app : String) : Option ℕ :=
  findFrom app 0 m.profiles

end ProfileManager

/-- Number of default-flagged profiles in a list. -/
def defaultCount (l : List Profile) : ℕ :=
  l.countP fun p => p.is_default

/-- A sysfs valuation: which paths exist, and which `fs::write` calls
fail. -/
structure Fs where
  present : String → Bool
  writeFails : String → Bool

/-- The per-core `scaling_governor` sysfs path. -/
def governorNode (cpu : ℕ) : String :=
  "/sys/devices/system/cpu/cpu" ++ toString cpu ++ "/cpufreq/scaling_governor"

/-- The governor string chosen by `HardwareController::set_cpu_governor`
from the performance profile. -/
def governorString : CpuPerformanceProfile → String
  | .PowerSave => "powersave"
  | .Balanced => "schedutil"
  | .Performance => "performance"

/-- The per-core loop of `set_cpu_governor`: skip absent nodes; a
failing write returns the error immediately (the source uses `?` on
`fs::write(..).context(..)`), so later cores are not visited. Returns
the successful writes and the optional error. -/
def governorGo (fs : Fs) (gov : String) : List ℕ → List (String × String) × Option String
  | [] => ([], none)
  | cpu :: rest =>
    if fs.present (governorNode cpu) then
      if fs.writeFails (governorNode cpu) then
        ([], some ("Failed to set governor for CPU " ++ toString cpu))
      else
        let r := governorGo fs gov rest
        ((governorNode cpu, gov) :: r.1, r.2)
    else
      governorGo fs gov rest

namespace HardwareController

/-- Embedding of `HardwareController::set_cpu_governor` from `hardware_control.rs`,
with the result of `get_cpu_count` as the `cpuCount` parameter. -/
def set_cpu_governor (fs : Fs) (cpuCount : ℕ) (settings : CpuSettings) :
    List (String × String) × Option String :=
  governorGo fs (governorString settings.performance_profile) (List.range cpuCount)

end HardwareController

/-- The Intel `no_turbo` sysfs path. -/
def intelBoostNode : String :=
  "/sys/devices/system/cpu/intel_pstate/no_turbo"

/-- The AMD `cpufreq/boost` sysfs path. -/
def amdBoostNode : String :=
  "/sys/devices/system/cpu/cpufreq/boost"

/-- The legacy per-core `cpufreq/boost` sysfs path. -/
def legacyBoostNode (cpu : ℕ) : String :=
  "/sys/devices/system/cpu/cpu" ++ toString cpu ++ "/cpufreq/boost"

/-- The legacy per-core loop of `set_cpu_boost`: write "1"/"0" to each
present node, ignoring write failures (the source calls
`fs::write(..).ok()`); a failing write simply performs nothing. -/
def boostLegacyGo (fs : Fs) (enable : Bool) : List ℕ → List (String × String)
  | [] => []
  | cpu :: rest =>
    if fs.present (legacyBoostNode cpu) && !fs.writeFails (legacyBoostNode cpu) then
      (legacyBoostNode cpu, if enable then "1" else "0") :: boostLegacyGo fs enable rest
    else
      boostLegacyGo fs enable rest

namespace HardwareController

/-- Embedding of `HardwareController::set_cpu_boost` from `hardware_control.rs`:
Intel `no_turbo` first (inverted polarity, `?` on failure), then the
AMD flag, then the legacy per-core nodes. -/
def set_cpu_boost (fs : Fs) (cpuCount : ℕ) (enable : Bool) :
    List (String × String) × Option String :=
  if fs.present intelBoostNode then
    if fs.writeFails intelBoostNode then
      ([], some "Failed to set Intel turbo boost")
    else
      ([(intelBoostNode, if enable then "0" else "1")], none)
  else if fs.present amdBoostNode then
    if fs.writeFails amdBoostNode then
      ([], some "Failed to set AMD boost")
    else
      ([(amdBoostNode, if enable then "1" else "0")], none)
  else
    (boostLegacyGo fs enable (List.range cpuCount), none)

end HardwareController

/-- The match predicate as the spec words it: `auto_switch_enabled`
and some `trigger_apps` entry that is a case-insensitive substring of
the app string. -/
def profileMatches (app : String) (p : Profile) : Prop :=
  p.auto_switch_enabled = true ∧
  ∃ t ∈ p.trigger_apps, ProfileManager.lowerChars t <:+: ProfileManager.lowerChars app

/-- The bound invariant of the profile manager: a non-empty profile
list with the active index strictly inside it. -/
def managerInv (m : ProfileManager) : Prop :=
  m.profiles ≠ [] ∧ m.active_profile_index < m.profiles.length

/-- A non-default profile with auto-switching on the trigger "steam". -/
def pGaming : Profile :=
  { Profile.default_profile with
      name := "Gaming"
      is_default := false
      auto_switch_enabled := true
      trigger_apps := ["steam"] }

/-- A validated profile with a fresh name that keeps the
`is_default = true` flag of the default profile. -/
def pSecondDefault : Profile :=
  { Profile.default_profile with name := "Other" }

/-- A profile that fails validation: its fan curve has only 7 points. -/
def badProfile : Profile :=
  { Profile.default_profile with
      name := "Bad"
      fan_curves := [("fan1", ⟨[⟨40, 30⟩, ⟨50, 40⟩, ⟨60, 50⟩, ⟨65, 60⟩,
        ⟨70, 70⟩, ⟨75, 80⟩, ⟨80, 90⟩]⟩)] }

/-- A sysfs valuation with two governor nodes where the write to the
cpu0 node fails. -/
def fsGovernorFail : Fs :=
  ⟨fun s => s == governorNode 0 || s == governorNode 1, fun s => s == governorNode 0⟩

/-- A sysfs valuation with two governor nodes and no write failures. -/
def fsGovernorOk : Fs :=
  ⟨fun s => s == governorNode 0 || s == governorNode 1, fun _ => false⟩

/-- A sysfs valuation exposing only the Intel `no_turbo` node. -/
def fsIntel : Fs :=
  ⟨fun s => s == intelBoostNode, fun _ => false⟩

/-- A sysfs valuation exposing only the AMD boost node. -/
def fsAmd : Fs :=
  ⟨fun s => s == amdBoostNode, fun _ => false⟩

/-- A sysfs valuation exposing only the cpu0 legacy boost node. -/
def fsLegacy : Fs :=
  ⟨fun s => s == legacyBoostNode 0, fun _ => false⟩

/-- CPU settings using the `Balanced` performance profile. -/
def balancedSettings : CpuSettings :=
  ⟨.Balanced, none, none, false, true⟩

lemma ascendingOk_iff (l : List FanCurvePoint) :
    ascendingOk l = true ↔ l.Chain' (fun p q => p.temp < q.temp) := by
  induction l with
  | nil => simp [ascendingOk]
  | cons p rest ih =>
    cases rest with
    | nil => simp [ascendingOk]
    | cons q rest' =>
      rw [ascendingOk, List.chain'_cons, Bool.and_eq_true, decide_eq_true_iff, ih]

/-- C2: `FanCurve::validate` succeeds exactly on curves with 8 points,
strictly ascending temperatures by index, and all duty values at most
100 (duties are `u8`, hence at least 0). -/
theorem C2_fan_curve_validate (c : FanCurve) :
    c.validate = .ok () ↔
      c.points.length = 8 ∧
      (∀ i (h : i + 1 < c.points.length),
        (c.points.get ⟨i, by omega⟩).temp < (c.points.get ⟨i + 1, h⟩).temp) ∧
      ∀ p ∈ c.points, p.speed ≤ 100 := by
  constructor
  · intro hok
    unfold FanCurve.validate at hok
    split_ifs at hok with h1 h2 h3
    push_neg at h1
    have h2' : ascendingOk c.points = true := by
      revert h2; cases hA : ascendingOk c.points <;> simp
    have h3' : (c.points.all fun p => decide (p.speed ≤ 100)) = true := by
      revert h3; cases hA : c.points.all fun p => decide (p.speed ≤ 100) <;> simp
    rw [List.all_eq_true] at h3'
    have hch := (ascendingOk_iff _).mp h2'
    rw [List.chain'_iff_get] at hch
    refine ⟨h1, ?_, fun p hp => of_decide_eq_true (h3' p hp)⟩
    intro i h
    exact hch i (by omega)
  · rintro ⟨hlen, hasc, hsp⟩
    have hasc' : ascendingOk c.points = true := by
      rw [ascendingOk_iff, List.chain'_iff_get]
      intro i h
      exact hasc i (by omega)
    have hall : (c.points.all fun p => decide (p.speed ≤ 100)) = true := by
      rw [List.all_eq_true]
      exact fun p hp => decide_eq_true (hsp p hp)
    unfold FanCurve.validate
    rw [if_neg (fun hne => hne hlen), if_neg (by simp [hasc']), if_neg (by simp [hall])]

/-- C3: the CPU-load computation returns 0 on a zero total delta (no
division by zero), 0 when the idle delta equals the total delta, 100
when the idle delta is zero and the total delta is not (a zero total
delta takes precedence and yields 0), and always a value in [0,100]. -/
theorem C3_cpu_load (prev curr : CpuStats) :
    (totalDiff prev curr = 0 → HardwareMonitor.calculate_cpu_load prev curr = 0) ∧
    (idleDiff prev curr = totalDiff prev curr →
      HardwareMonitor.calculate_cpu_load prev curr = 0) ∧
    (totalDiff prev curr ≠ 0 → idleDiff prev curr = 0 →
      HardwareMonitor.calculate_cpu_load prev curr = 100) ∧
    0 ≤ HardwareMonitor.calculate_cpu_load prev curr ∧
    HardwareMonitor.calculate_cpu_load prev curr ≤ 100 := by
  have htd : totalDiff prev curr < 2 ^ 64 := by
    have hlt : curr.totalAll < 2 ^ 64 := Nat.mod_lt _ (by norm_num)
    calc totalDiff prev curr ≤ curr.totalAll := Nat.sub_le _ _
      _ < 2 ^ 64 := hlt
  refine ⟨?_, ?_, ?_, ?_, ?_⟩
  · intro h
    simp [HardwareMonitor.calculate_cpu_load, h]
  · intro h
    by_cases h0 : totalDiff prev curr = 0
    · simp [HardwareMonitor.calculate_cpu_load, h0]
    · have hmod : (totalDiff prev curr + 18446744073709551616 - idleDiff prev curr) %
          18446744073709551616 = 0 := by
        rw [h]; omega
      simp [HardwareMonitor.calculate_cpu_load, h0, hmod]
  · intro h0 hidle
    have hmod : (totalDiff prev curr + 18446744073709551616 - idleDiff prev curr) %
        18446744073709551616 = totalDiff prev curr := by
      rw [hidle]; omega
    have hcast : ((totalDiff prev curr : ℚ)) ≠ 0 := by
      exact_mod_cast h0
    simp [HardwareMonitor.calculate_cpu_load, h0, hmod, div_self hcast]
  · by_cases h0 : totalDiff prev curr = 0
    · simp [HardwareMonitor.calculate_cpu_load, h0]
    · simp only [HardwareMonitor.calculate_cpu_load, if_neg h0]
      exact le_max_left 0 _
  · by_cases h0 : totalDiff prev curr = 0
    · simp [HardwareMonitor.calculate_cpu_load, h0]
    · simp only [HardwareMonitor.calculate_cpu_load, if_neg h0]
      exact max_le (by norm_num) (min_le_left _ _)

/-- Witness for C3 at a concrete sample pair with zero idle delta. -/
theorem C3_cpu_load_witness :
    (totalDiff ⟨0, 0, 0, 0, 0, 0, 0⟩ ⟨1, 0, 0, 0, 0, 0, 0⟩ ≠ 0 ∧
     idleDiff ⟨0, 0, 0, 0, 0, 0, 0⟩ ⟨1, 0, 0, 0, 0, 0, 0⟩ = 0) ∧
    HardwareMonitor.calculate_cpu_load ⟨0, 0, 0, 0, 0, 0, 0⟩ ⟨1, 0, 0, 0, 0, 0, 0⟩ = 100 :=
  ⟨⟨by decide, by decide⟩, (C3_cpu_load _ _).2.2.1 (by decide) (by decide)⟩

lemma triggerHit_iff (app : String) (p : Profile) :
    ProfileManager.triggerHit app p = true ↔ profileMatches app p := by
  simp [ProfileManager.triggerHit, profileMatches, List.any_eq_true]

lemma findFrom_none_iff (app : String) (l : List Profile) (k : ℕ) :
    ProfileManager.findFrom app k l = none ↔ ∀ p ∈ l, ¬ profileMatches app p := by
  induction l generalizing k with
  | nil => simp [ProfileManager.findFrom]
  | cons p rest ih =>
    rw [ProfileManager.findFrom]
    by_cases hp : ProfileManager.triggerHit app p = true
    · rw [if_pos hp]
      constructor
      · intro h
        exact absurd h (by simp)
      · intro hall
        exact absurd (triggerHit_iff app p |>.mp hp) (hall p (by simp))
    · rw [if_neg hp, ih]
      constructor
      · intro hrest p' hp'
        rcases List.mem_cons.mp hp' with rfl | hm
        · exact fun hm' => hp ((triggerHit_iff app p').mpr hm')
        · exact hrest p' hm
      · intro hall p' hm
        exact hall p' (List.mem_cons_of_mem _ hm)

lemma findFrom_some_iff (app : String) (l : List Profile) (k i : ℕ) :
    ProfileManager.findFrom app k l = some i ↔
      ∃ j, ∃ h : j < l.length, i = k + j ∧ profileMatches app (l.get ⟨j, h⟩) ∧
        ∀ j' (h' : j' < l.length), j' < j → ¬ profileMatches app (l.get ⟨j', h'⟩) := by
  induction l generalizing k i with
  | nil => simp [ProfileManager.findFrom]
  | cons p rest ih =>
    rw [ProfileManager.findFrom]
    by_cases hp : ProfileManager.triggerHit app p = true
    · rw [if_pos hp]
      constructor
      · intro h
        have hik : k = i := by simpa using h
        refine ⟨0, by simp, by omega, by simpa using (triggerHit_iff app p).mp hp, ?_⟩
        intro j' h' hj'
        exact absurd hj' (Nat.not_lt_zero _)
      · rintro ⟨j, hj, hik, hmatch, hmin⟩
        cases j with
        | zero =>
          simp only [Nat.add_zero] at hik
          simp [hik]
        | succ j' =>
          exfalso
          have h0 : (0 : ℕ) < (p :: rest).length := by simp
          exact hmin 0 h0 (Nat.succ_pos _) (by simpa using (triggerHit_iff app p).mp hp)
    · rw [if_neg hp, ih]
      constructor
      · rintro ⟨j, hj, hik, hmatch, hmin⟩
        refine ⟨j + 1, by simpa using Nat.succ_lt_succ hj, by omega, hmatch, ?_⟩
        intro j' h' hj'
        cases j' with
        | zero =>
          intro hm
          exact hp ((triggerHit_iff app p).mpr (by simpa using hm))
        | succ j'' =>
          have h'' : j'' < rest.length := by
            simp only [List.length_cons] at h'
            omega
          exact hmin j'' h'' (by omega)
      · rintro ⟨j, hj, hik, hmatch, hmin⟩
        cases j with
        | zero =>
          exact absurd ((triggerHit_iff app p).mpr (by simpa using hmatch)) hp
        | succ j' =>
          have hj' : j' < rest.length := by
            simp only [List.length_cons] at hj
            omega
          refine ⟨j', hj', by omega, hmatch, ?_⟩
          intro j'' h'' hj''
          have hcons : j'' + 1 < (p :: rest).length := by
            simp only [List.length_cons]
            omega
          exact hmin (j'' + 1) hcons (by omega)

/-- C8: `find_profile_for_app` returns the lowest-indexed profile with
auto-switching enabled and a trigger that is a case-insensitive
substring of the app string, `none` exactly when no profile qualifies;
in particular the "steam"-triggered profile is selected for
"SteamBigPicture" as the first match. -/
theorem C8_find_profile_for_app (m : ProfileManager) (app : String) :
    (∀ i, m.find_profile_for_app app = some i ↔
      ∃ h : i < m.profiles.length,
        profileMatches app (m.profiles.get ⟨i, h⟩) ∧
        ∀ j (hj : j < m.profiles.length), j < i →
          ¬ profileMatches app (m.profiles.get ⟨j, hj⟩)) ∧
    (m.find_profile_for_app app = none ↔ ∀ p ∈ m.profiles, ¬ profileMatches app p) ∧
    ProfileManager.find_profile_for_app ⟨[Profile.default_profile, pGaming], 0⟩
      "SteamBigPicture" = some 1 := by
  refine ⟨?_, ?_, ?_⟩
  · intro i
    unfold ProfileManager.find_profile_for_app
    rw [findFrom_some_iff]
    constructor
    · rintro ⟨j, hj, hik, hmatch, hmin⟩
      have hji : j = i := by omega
      subst hji
      exact ⟨hj, hmatch, fun j' hj' hlt => hmin j' hj' hlt⟩
    · rintro ⟨h, hmatch, hmin⟩
      exact ⟨i, h, by omega, hmatch, fun j' hj' hlt => hmin j' hj' hlt⟩
  · unfold ProfileManager.find_profile_for_app
    rw [findFrom_none_iff]
  · decide

lemma governorGo_ok (fs : Fs) (gov : String) (l : List ℕ)
    (hnf : ∀ c ∈ l, fs.present (governorNode c) = true →
      fs.writeFails (governorNode c) = false) :
    governorGo fs gov l =
      ((l.filter fun c => fs.present (governorNode c)).map fun c => (governorNode c, gov),
       none) := by
  induction l with
  | nil => simp [governorGo]
  | cons c rest ih =>
    have hrest : ∀ c' ∈ rest, fs.present (governorNode c') = true →
        fs.writeFails (governorNode c') = false :=
      fun c' hm => hnf c' (List.mem_cons_of_mem _ hm)
    rw [governorGo]
    by_cases hc : fs.present (governorNode c) = true
    · have hw : fs.writeFails (governorNode c) = false := hnf c (by simp) hc
      rw [if_pos hc, if_neg (by rw [hw]; simp), ih hrest]
      simp [List.filter_cons, hc]
    · rw [if_neg hc, ih hrest]
      simp [List.filter_cons, hc]

lemma governorGo_abort (fs : Fs) (gov : String) (j : ℕ) (l2 : List ℕ)
    (hp : fs.present (governorNode j) = true) (hf : fs.writeFails (governorNode j) = true) :
    ∀ l1 : List ℕ, (∀ c ∈ l1, fs.present (governorNode c) = true →
      fs.writeFails (governorNode c) = false) →
    governorGo fs gov (l1 ++ j :: l2) =
      ((l1.filter fun c => fs.present (governorNode c)).map fun c => (governorNode c, gov),
       some ("Failed to set governor for CPU " ++ toString j)) := by
  intro l1
  induction l1 with
  | nil =>
    intro _
    rw [List.nil_append, governorGo, if_pos hp, if_pos hf]
    simp
  | cons c rest ih =>
    intro hnf
    have hrest : ∀ c' ∈ rest, fs.present (governorNode c') = true →
        fs.writeFails (governorNode c') = false :=
      fun c' hm => hnf c' (List.mem_cons_of_mem _ hm)
    rw [List.cons_append, governorGo]
    by_cases hc : fs.present (governorNode c) = true
    · have hw : fs.writeFails (governorNode c) = false := hnf c (by simp) hc
      rw [if_pos hc, if_neg (by rw [hw]; simp), ih hrest]
      simp [List.filter_cons, hc]
    · rw [if_neg hc, ih hrest]
      simp [List.filter_cons, hc]

lemma range_split (n j : ℕ) (h : j < n) :
    List.range n = List.range j ++ j :: ((List.range (n - (j + 1))).map fun k => j + 1 + k) := by
  have hn : n = (j + 1) + (n - (j + 1)) := by omega
  calc List.range n = List.range ((j + 1) + (n - (j + 1))) := by rw [← hn]
    _ = List.range (j + 1) ++ (List.range (n - (j + 1))).map (fun k => (j + 1) + k) := by
        rw [List.range_add]
    _ = (List.range j ++ [j]) ++ (List.range (n - (j + 1))).map (fun k => (j + 1) + k) := by
        rw [List.range_succ]
    _ = List.range j ++ j :: ((List.range (n - (j + 1))).map fun k => j + 1 + k) := by
        rw [List.append_assoc]
        rfl

/-- C6 amended: `set_cpu_governor` maps PowerSave to "powersave",
Balanced to "schedutil" and Performance to "performance"; when no write
fails it writes the governor string to every present per-core node, in
index order; but a failing write aborts the whole operation: the error
of the first present-and-failing core is returned and no later core is
written. -/
theorem C6_set_cpu_governor_amended (fs : Fs) (n : ℕ) (settings : CpuSettings) :
    (governorString .PowerSave = "powersave" ∧
     governorString .Balanced = "schedutil" ∧
     governorString .Performance = "performance") ∧
    ((∀ c, c < n → fs.present (governorNode c) = true →
        fs.writeFails (governorNode c) = false) →
      HardwareController.set_cpu_governor fs n settings =
        (((List.range n).filter fun c => fs.present (governorNode c)).map
          (fun c => (governorNode c, governorString settings.performance_profile)),
         none)) ∧
    (∀ j, j < n → fs.present (governorNode j) = true →
      fs.writeFails (governorNode j) = true →
      (∀ c, c < j → fs.present (governorNode c) = true →
        fs.writeFails (governorNode c) = false) →
      HardwareController.set_cpu_governor fs n settings =
        (((List.range j).filter fun c => fs.present (governorNode c)).map
          (fun c => (governorNode c, governorString settings.performance_profile)),
         some ("Failed to set governor for CPU " ++ toString j))) := by
  refine ⟨⟨rfl, rfl, rfl⟩, ?_, ?_⟩
  · intro hnf
    unfold HardwareController.set_cpu_governor
    exact governorGo_ok _ _ _ fun c hm => hnf c (List.mem_range.mp hm)
  · intro j hj hp hf hbefore
    unfold HardwareController.set_cpu_governor
    rw [range_split n j hj]
    exact governorGo_abort _ _ _ _ hp hf _ fun c hm => hbefore c (List.mem_range.mp hm)

/-- Witness for C6 amended: with two present nodes and no failures both
are written; with a failing cpu0 write, nothing is written and the
error names CPU 0. -/
theorem C6_set_cpu_governor_amended_witness :
    HardwareController.set_cpu_governor fsGovernorOk 2 balancedSettings =
      ([(governorNode 0, "schedutil"), (governorNode 1, "schedutil")], none) ∧
    HardwareController.set_cpu_governor fsGovernorFail 2 balancedSettings =
      ([], some "Failed to set governor for CPU 0") := by
  constructor
  · have h := (C6_set_cpu_governor_amended fsGovernorOk 2 balancedSettings).2.1
      (by decide)
    rw [h]
    decide
  · have h := (C6_set_cpu_governor_amended fsGovernorFail 2 balancedSettings).2.2 0
      (by decide) (by decide) (by decide) (by decide)
    rw [h]
    decide

/-- C6 counterexample: the claim says a failed per-core write does not
prevent writes to subsequent cores, but with the cpu0 write failing the
present cpu1 node is never written. -/
theorem C6_set_cpu_governor_counterexample :
    fsGovernorFail.present (governorNode 1) = true ∧
    HardwareController.set_cpu_governor fsGovernorFail 2 balancedSettings =
      ([], some "Failed to set governor for CPU 0") ∧
    ∀ v, (governorNode 1, v) ∉
      (HardwareController.set_cpu_governor fsGovernorFail 2 balancedSettings).1 := by
  refine ⟨by decide, by decide, ?_⟩
  intro v
  have h : (HardwareController.set_cpu_governor fsGovernorFail 2 balancedSettings).1 =
      [] := by decide
  rw [h]
  exact List.not_mem_nil _

lemma boostLegacyGo_eq (fs : Fs) (enable : Bool) (l : List ℕ) :
    boostLegacyGo fs enable l =
      (l.filter fun c => fs.present (legacyBoostNode c) && !fs.writeFails (legacyBoostNode c)).map
        fun c => (legacyBoostNode c, if enable then "1" else "0") := by
  induction l with
  | nil => simp [boostLegacyGo]
  | cons c rest ih =>
    rw [boostLegacyGo]
    by_cases hc : (fs.present (legacyBoostNode c) && !fs.writeFails (legacyBoostNode c)) = true
    · rw [if_pos hc, ih]
      simp [List.filter_cons, hc]
    · rw [if_neg hc, ih]
      simp [List.filter_cons, hc]

/-- C7: `set_cpu_boost` tries the Intel `no_turbo` flag, then the AMD
`cpufreq/boost` flag, then the legacy per-core nodes, stopping at the
first backend whose node exists; the Intel node receives "0" to enable
boost and "1" to disable (inverted polarity), the AMD and legacy nodes
receive "1" to enable and "0" to disable. -/
theorem C7_set_cpu_boost (fs : Fs) (n : ℕ) (enable : Bool) :
    (fs.present intelBoostNode = true → fs.writeFails intelBoostNode = false →
      HardwareController.set_cpu_boost fs n enable =
        ([(intelBoostNode, if enable then "0" else "1")], none)) ∧
    (fs.present intelBoostNode = true → fs.writeFails intelBoostNode = true →
      HardwareController.set_cpu_boost fs n enable =
        ([], some "Failed to set Intel turbo boost")) ∧
    (fs.present intelBoostNode = false → fs.present amdBoostNode = true →
      fs.writeFails amdBoostNode = false →
      HardwareController.set_cpu_boost fs n enable =
        ([(amdBoostNode, if enable then "1" else "0")], none)) ∧
    (fs.present intelBoostNode = false → fs.present amdBoostNode = true →
      fs.writeFails amdBoostNode = true →
      HardwareController.set_cpu_boost fs n enable =
        ([], some "Failed to set AMD boost")) ∧
    (fs.present intelBoostNode = false → fs.present amdBoostNode = false →
      HardwareController.set_cpu_boost fs n enable =
        (((List.range n).filter fun c =>
            fs.present (legacyBoostNode c) && !fs.writeFails (legacyBoostNode c)).map
          (fun c => (legacyBoostNode c, if enable then "1" else "0")),
         none)) := by
  refine ⟨?_, ?_, ?_, ?_, ?_⟩
  · intro hp hw
    unfold HardwareController.set_cpu_boost
    rw [if_pos hp, if_neg (by rw [hw]; simp)]
  · intro hp hw
    unfold HardwareController.set_cpu_boost
    rw [if_pos hp, if_pos hw]
  · intro hip hap hw
    unfold HardwareController.set_cpu_boost
    rw [if_neg (by simp [hip]), if_pos hap, if_neg (by rw [hw]; simp)]
  · intro hip hap hw
    unfold HardwareController.set_cpu_boost
    rw [if_neg (by simp [hip]), if_pos hap, if_pos hw]
  · intro hip hap
    unfold HardwareController.set_cpu_boost
    rw [if_neg (by simp [hip]), if_neg (by simp [hap]), boostLegacyGo_eq]

/-- Witness for C7: concrete filesystems exposing exactly one backend
each; enable writes "0" to the Intel node, "1" to the AMD node, and "1"
to the cpu0 legacy node. -/
theorem C7_set_cpu_boost_witness :
    HardwareController.set_cpu_boost fsIntel 1 true = ([(intelBoostNode, "0")], none) ∧
    HardwareController.set_cpu_boost fsAmd 1 false = ([(amdBoostNode, "0")], none) ∧
    HardwareController.set_cpu_boost fsLegacy 1 true =
      ([(legacyBoostNode 0, "1")], none) := by
  refine ⟨?_, ?_, ?_⟩
  · have h := (C7_set_cpu_boost fsIntel 1 true).1 (by decide) (by decide)
    rw [h]
    decide
  · have h := (C7_set_cpu_boost fsAmd 1 false).2.2.1 (by decide) (by decide) (by decide)
    rw [h]
    decide
  · have h := (C7_set_cpu_boost fsLegacy 1 true).2.2.2.2 (by decide) (by decide)
    rw [h]
    decide

lemma countP_eraseIdx (pr : Profile → Bool) :
    ∀ (l : List Profile) (i : ℕ) (h : i < l.length), pr (l.get ⟨i, h⟩) = false →
      (l.eraseIdx i).countP pr = l.countP pr := by
  intro l
  induction l with
  | nil =>
    intro i h
    simp at h
  | cons a rest ih =>
    intro i h hp
    cases i with
    | zero =>
      simp only [List.eraseIdx, List.countP_cons]
      simp only [List.get] at hp
      simp [hp]
    | succ i' =>
      simp only [List.eraseIdx, List.countP_cons]
      have h' : i' < rest.length := by
        simp only [List.length_cons] at h
        omega
      rw [ih i' h' (by simpa using hp)]

/-- C4 amended: `delete_profile` preserves the exactly-one-default
invariant, and invoked on the index of a default-flagged profile it
fails (leaving the manager unchanged, as the source bails before
mutating); but `add_profile` never inspects `is_default` — it succeeds
exactly when the profile validates and its name is fresh — so adding a
validated, fresh-named profile flagged as default breaks uniqueness. -/
theorem C4_default_uniqueness_amended :
    (∀ (m : ProfileManager) (i : ℕ) (m' : ProfileManager),
      defaultCount m.profiles = 1 → ProfileManager.delete_profile m i = .ok m' →
      defaultCount m'.profiles = 1) ∧
    (∀ (m : ProfileManager) (i : ℕ) (h : i < m.profiles.length),
      (m.profiles.get ⟨i, h⟩).is_default = true →
      ProfileManager.delete_profile m i = .error "Cannot delete default profile") ∧
    (∀ (m : ProfileManager) (p : Profile),
      (∃ m', ProfileManager.add_profile m p = .ok m') ↔
        (p.validate = .ok () ∧ ∀ q ∈ m.profiles, q.name ≠ p.name)) := by
  refine ⟨?_, ?_, ?_⟩
  · intro m i m' hcount hdel
    by_cases hlt : i < m.profiles.length
    · simp only [ProfileManager.delete_profile, dif_pos hlt] at hdel
      by_cases hdef : (m.profiles.get ⟨i, hlt⟩).is_default = true
      · rw [if_pos hdef] at hdel
        exact absurd hdel (by simp)
      · have hd : (m.profiles.get ⟨i, hlt⟩).is_default = false := by
          simpa using hdef
        rw [if_neg hdef] at hdel
        have hprofiles : m'.profiles = m.profiles.eraseIdx i := by
          by_cases hge : m.active_profile_index ≥ (m.profiles.eraseIdx i).length
          · rw [if_pos hge] at hdel
            simp only [Except.ok.injEq] at hdel
            rw [← hdel]
          · rw [if_neg hge] at hdel
            simp only [Except.ok.injEq] at hdel
            rw [← hdel]
        unfold defaultCount at hcount ⊢
        rw [hprofiles, countP_eraseIdx _ m.profiles i hlt hd]
        exact hcount
    · simp only [ProfileManager.delete_profile, dif_neg hlt] at hdel
      exact absurd hdel (by simp)
  · intro m i h hdef
    simp only [ProfileManager.delete_profile, dif_pos h, if_pos hdef]
  · intro m p
    cases hv : p.validate with
    | error e =>
      simp only [ProfileManager.add_profile, hv]
      constructor
      · rintro ⟨m', hm'⟩
        exact absurd hm' (by simp)
      · rintro ⟨hok, -⟩
        exact absurd hok (by simp)
    | ok u =>
      cases u
      by_cases hany : (m.profiles.any fun q => q.name == p.name) = true
      · simp only [ProfileManager.add_profile, hv, if_pos hany]
        rw [List.any_eq_true] at hany
        obtain ⟨q, hqm, hqe⟩ := hany
        rw [beq_iff_eq] at hqe
        constructor
        · rintro ⟨m', hm'⟩
          exact absurd hm' (by simp)
        · rintro ⟨-, hnames⟩
          exact absurd hqe (hnames q hqm)
      · simp only [ProfileManager.add_profile, hv, if_neg hany]
        constructor
        · intro _
          refine ⟨trivial, ?_⟩
          intro q hqm heq
          exact hany (List.any_eq_true.mpr ⟨q, hqm, beq_iff_eq.mpr heq⟩)
        · intro _
          exact ⟨_, rfl⟩

/-- Witness for C4 amended: deleting the non-default profile of a
two-profile manager keeps exactly one default; deleting index 0 (the
default) fails; adding a fresh-named valid profile succeeds. -/
theorem C4_default_uniqueness_amended_witness :
    defaultCount [Profile.default_profile, pGaming] = 1 ∧
    defaultCount
      ((⟨[Profile.default_profile], 0⟩ : ProfileManager)).profiles = 1 ∧
    ProfileManager.delete_profile ⟨[Profile.default_profile, pGaming], 0⟩ 0 =
      .error "Cannot delete default profile" ∧
    (∃ m', ProfileManager.add_profile ⟨[Profile.default_profile], 0⟩ pGaming = .ok m') := by
  refine ⟨by decide, by decide, ?_, ?_⟩
  · exact C4_default_uniqueness_amended.2.1 ⟨[Profile.default_profile, pGaming], 0⟩ 0
      (by decide) (by decide)
  · exact (C4_default_uniqueness_amended.2.2 ⟨[Profile.default_profile], 0⟩ pGaming).mpr
      ⟨by rfl, by decide⟩

/-- C4 counterexample: `add_profile` accepts a validated, fresh-named
profile that also carries `is_default = true`, so after the call two
profiles are default-flagged — uniqueness is not preserved. -/
theorem C4_default_uniqueness_counterexample :
    defaultCount (⟨[Profile.default_profile], 0⟩ : ProfileManager).profiles = 1 ∧
    ProfileManager.add_profile ⟨[Profile.default_profile], 0⟩ pSecondDefault =
      .ok ⟨[Profile.default_profile, pSecondDefault], 0⟩ ∧
    defaultCount [Profile.default_profile, pSecondDefault] = 2 :=
  ⟨by decide, by rfl, by decide⟩

/-- C5: evaluating `load_profiles` at a store holding the default
profile and a file containing one invalid profile (7-point fan curve):
the error is surfaced, but the in-memory list has already been replaced
by the invalid parsed list — the store is not left unchanged. -/
theorem C5_load_profiles_mutates_on_error :
    (ProfileManager.load_profiles ⟨[Profile.default_profile], 0⟩ (some [badProfile])).2 =
      some "Invalid profile: Bad" ∧
    (ProfileManager.load_profiles ⟨[Profile.default_profile], 0⟩ (some [badProfile])).1 =
      ⟨[badProfile], 0⟩ ∧
    [badProfile] ≠ [Profile.default_profile] :=
  ⟨by rfl, by rfl, by decide⟩

/-- C9 counterexample: a single non-default stored profile is a
reachable state of `new`, and deleting it succeeds, emptying the list —
the non-emptiness and index bound are not preserved by
`delete_profile`. -/
theorem C9_active_index_counterexample :
    ProfileManager.new (some [pGaming]) = .ok ⟨[pGaming], 0⟩ ∧
    managerInv ⟨[pGaming], 0⟩ ∧
    ProfileManager.delete_profile ⟨[pGaming], 0⟩ 0 = .ok ⟨[], 0⟩ ∧
    ¬ managerInv ⟨[], 0⟩ := by
  refine ⟨by rfl, ⟨by decide, by decide⟩, by rfl, ?_⟩
  rintro ⟨-, hlt⟩
  exact Nat.lt_irrefl 0 hlt

/-- C9 amended: after a successful `new` the profile list is non-empty
and the active index is in bounds; `add_profile`, `update_profile` and
`set_active_profile` preserve the bound (failures leave the manager
unchanged, as the source bails before mutating); `delete_profile`
preserves it whenever some profile is default-flagged; and on every
state satisfying the bound `get_active_profile` is in bounds. Deleting
the last remaining profile of an all-non-default list breaks it. -/
theorem C9_active_index_amended :
    (∀ (stored : Option (List Profile)) (m : ProfileManager),
      ProfileManager.new stored = .ok m → managerInv m) ∧
    (∀ (m : ProfileManager) (p : Profile) (m' : ProfileManager), managerInv m →
      ProfileManager.add_profile m p = .ok m' → managerInv m') ∧
    (∀ (m : ProfileManager) (i : ℕ) (p : Profile) (m' : ProfileManager), managerInv m →
      ProfileManager.update_profile m i p = .ok m' → managerInv m') ∧
    (∀ (m : ProfileManager) (i : ℕ) (m' : ProfileManager),
      (∃ q ∈ m.profiles, q.is_default = true) →
      ProfileManager.delete_profile m i = .ok m' → managerInv m') ∧
    (∀ (m : ProfileManager) (i : ℕ) (m' : ProfileManager),
      ProfileManager.set_active_profile m i = .ok m' → managerInv m') ∧
    (∀ m : ProfileManager, managerInv m →
      (ProfileManager.get_active_profile m).isSome = true) := by
  refine ⟨?_, ?_, ?_, ?_, ?_, ?_⟩
  · intro stored m hnew
    cases stored with
    | none =>
      simp [ProfileManager.new, ProfileManager.load_profiles] at hnew
      subst hnew
      exact ⟨by simp, by simp⟩
    | some ps =>
      cases hfe : firstProfileError ps with
      | some e =>
        simp only [ProfileManager.new, ProfileManager.load_profiles, hfe] at hnew
        exact absurd hnew (by simp)
      | none =>
        simp only [ProfileManager.new, ProfileManager.load_profiles, hfe] at hnew
        by_cases hemp : ps.isEmpty = true
        · rw [if_pos (by simpa using hemp)] at hnew
          simp only [Except.ok.injEq] at hnew
          subst hnew
          exact ⟨by simp, by simp⟩
        · rw [if_neg (by simpa using hemp)] at hnew
          simp only [Except.ok.injEq] at hnew
          subst hnew
          have hne : ps ≠ [] := by
            intro hc
            exact hemp (by simp [hc])
          exact ⟨hne, by simpa using List.length_pos.mpr hne⟩
  · intro m p m' hinv hadd
    cases hv : p.validate with
    | error e =>
      simp only [ProfileManager.add_profile, hv] at hadd
      exact absurd hadd (by simp)
    | ok u =>
      cases u
      by_cases hany : (m.profiles.any fun q => q.name == p.name) = true
      · simp only [ProfileManager.add_profile, hv, if_pos hany] at hadd
        exact absurd hadd (by simp)
      · simp only [ProfileManager.add_profile, hv, if_neg hany, Except.ok.injEq] at hadd
        subst hadd
        refine ⟨by simp, ?_⟩
        simp only [List.length_append, List.length_cons, List.length_nil]
        have := hinv.2
        omega
  · intro m i p m' hinv hupd
    by_cases hge : i ≥ m.profiles.length
    · simp only [ProfileManager.update_profile, if_pos hge] at hupd
      exact absurd hupd (by simp)
    · simp only [ProfileManager.update_profile, if_neg hge] at hupd
      cases hv : p.validate with
      | error e =>
        rw [hv] at hupd
        exact absurd hupd (by simp)
      | ok u =>
        cases u
        rw [hv] at hupd
        simp only [Except.ok.injEq] at hupd
        subst hupd
        have hlen : (m.profiles.set i p).length = m.profiles.length := by simp
        constructor
        · show m.profiles.set i p ≠ []
          rw [← List.length_pos, hlen]
          have := hinv.2
          omega
        · show m.active_profile_index < (m.profiles.set i p).length
          rw [hlen]
          exact hinv.2
  · intro m i m' hex hdel
    obtain ⟨q, hqm, hqd⟩ := hex
    by_cases hlt : i < m.profiles.length
    · simp only [ProfileManager.delete_profile, dif_pos hlt] at hdel
      by_cases hdef : (m.profiles.get ⟨i, hlt⟩).is_default = true
      · rw [if_pos hdef] at hdel
        exact absurd hdel (by simp)
      · rw [if_neg hdef] at hdel
        have hlen2 : 2 ≤ m.profiles.length := by
          by_contra hc
          have hone : m.profiles.length = 1 := by omega
          obtain ⟨a, ha⟩ := List.length_eq_one.mp hone
          have hi0 : i = 0 := by omega
          have hq : q = a := by
            rw [ha] at hqm
            simpa using hqm
          have hget : m.profiles.get ⟨i, hlt⟩ = a := by
            subst hi0
            simp [ha]
          rw [hget] at hdef
          rw [hq] at hqd
          exact hdef hqd
        have herase : (m.profiles.eraseIdx i).length + 1 = m.profiles.length :=
          List.length_eraseIdx_add_one hlt
        have hpos : 0 < (m.profiles.eraseIdx i).length := by omega
        have hne : m.profiles.eraseIdx i ≠ [] := by
          rw [← List.length_pos]
          exact hpos
        by_cases hge : m.active_profile_index ≥ (m.profiles.eraseIdx i).length
        · rw [if_pos hge] at hdel
          simp only [Except.ok.injEq] at hdel
          subst hdel
          exact ⟨hne, hpos⟩
        · rw [if_neg hge] at hdel
          simp only [Except.ok.injEq] at hdel
          subst hdel
          refine ⟨hne, ?_⟩
          show m.active_profile_index < (m.profiles.eraseIdx i).length
          omega
    · simp only [ProfileManager.delete_profile, dif_neg hlt] at hdel
      exact absurd hdel (by simp)
  · intro m i m' hset
    by_cases hge : i ≥ m.profiles.length
    · simp only [ProfileManager.set_active_profile, if_pos hge] at hset
      exact absurd hset (by simp)
    · simp only [ProfileManager.set_active_profile, if_neg hge, Except.ok.injEq] at hset
      subst hset
      constructor
      · show m.profiles ≠ []
        rw [← List.length_pos]
        omega
      · show i < m.profiles.length
        omega
  · intro m hinv
    unfold ProfileManager.get_active_profile
    rw [List.get?_eq_get hinv.2]
    rfl

/-- Witness for C9 amended: a concrete `new` with no stored file yields
the default-profile manager, which satisfies the bound and thus has a
retrievable active profile. -/
theorem C9_active_index_amended_witness :
    ProfileManager.new none = .ok ⟨[Profile.default_profile], 0⟩ ∧
    managerInv (⟨[Profile.default_profile], 0⟩ : ProfileManager) ∧
    (ProfileManager.get_active_profile ⟨[Profile.default_profile], 0⟩).isSome = true := by
  refine ⟨by rfl, ?_, ?_⟩
  · exact C9_active_index_amended.1 none _ (by rfl)
  · exact C9_active_index_amended.2.2.2.2.2 _ (C9_active_index_amended.1 none _ (by rfl))

lemma round_mono' {x y : ℚ} (h : x ≤ y) : round x ≤ round y := by
  rw [round_eq, round_eq]
  exact Int.floor_mono (by linarith)

lemma specDuty_left (p q : FanCurvePoint) : specDuty p q (p.temp : ℚ) = (p.speed : ℤ) := by
  unfold specDuty
  rw [sub_self, zero_div, mul_zero, add_zero, round_natCast]

lemma specDuty_right (p q : FanCurvePoint) (hpq : p.temp < q.temp) :
    specDuty p q (q.temp : ℚ) = (q.speed : ℤ) := by
  have htq : (p.temp : ℚ) < (q.temp : ℚ) := by exact_mod_cast hpq
  have hne : (q.temp : ℚ) - (p.temp : ℚ) ≠ 0 := by linarith
  unfold specDuty
  rw [div_self hne, mul_one]
  have hq : (p.speed : ℚ) + ((q.speed : ℚ) - (p.speed : ℚ)) = (q.speed : ℚ) := by ring
  rw [hq, round_natCast]

lemma interpolate_eq_spec (p q : FanCurvePoint) (temp : ℚ)
    (hpq : p.temp < q.temp) (h1 : (p.temp : ℚ) ≤ temp) (h2 : temp ≤ (q.temp : ℚ))
    (hp : p.speed ≤ 255) (hq : q.speed ≤ 255) :
    interpolate p q temp = (specDuty p q temp).toNat ∧
    ((min p.speed q.speed : ℕ) : ℤ) ≤ specDuty p q temp ∧
    specDuty p q temp ≤ ((max p.speed q.speed : ℕ) : ℤ) := by
  have htq : (p.temp : ℚ) < (q.temp : ℚ) := by exact_mod_cast hpq
  have hrange : (0 : ℚ) < (q.temp : ℚ) - (p.temp : ℚ) := by linarith
  have hl0 : 0 ≤ (temp - (p.temp : ℚ)) / ((q.temp : ℚ) - (p.temp : ℚ)) :=
    div_nonneg (by linarith) hrange.le
  have hl1 : (temp - (p.temp : ℚ)) / ((q.temp : ℚ) - (p.temp : ℚ)) ≤ 1 := by
    rw [div_le_one hrange]
    linarith
  set lam : ℚ := (temp - (p.temp : ℚ)) / ((q.temp : ℚ) - (p.temp : ℚ)) with hlam
  set v : ℚ := (p.speed : ℚ) + ((q.speed : ℚ) - (p.speed : ℚ)) * lam with hv
  have hspec : specDuty p q temp = round v := rfl
  have hlow : ((min p.speed q.speed : ℕ) : ℚ) ≤ v := by
    rcases le_total p.speed q.speed with hle | hle
    · rw [min_eq_left hle]
      have hle' : (p.speed : ℚ) ≤ (q.speed : ℚ) := by exact_mod_cast hle
      rw [hv]
      nlinarith
    · rw [min_eq_right hle]
      have hle' : (q.speed : ℚ) ≤ (p.speed : ℚ) := by exact_mod_cast hle
      rw [hv]
      nlinarith
  have hhigh : v ≤ ((max p.speed q.speed : ℕ) : ℚ) := by
    rcases le_total p.speed q.speed with hle | hle
    · rw [max_eq_right hle]
      have hle' : (p.speed : ℚ) ≤ (q.speed : ℚ) := by exact_mod_cast hle
      rw [hv]
      nlinarith
    · rw [max_eq_left hle]
      have hle' : (q.speed : ℚ) ≤ (p.speed : ℚ) := by exact_mod_cast hle
      rw [hv]
      nlinarith
  have hrv1 : ((min p.speed q.speed : ℕ) : ℤ) ≤ round v := by
    have h := round_mono' hlow
    rwa [round_natCast] at h
  have hrv2 : round v ≤ ((max p.speed q.speed : ℕ) : ℤ) := by
    have h := round_mono' hhigh
    rwa [round_natCast] at h
  have hr0 : (0 : ℤ) ≤ round v := le_trans (Int.ofNat_nonneg _) hrv1
  have hr255 : round v ≤ 255 := by
    have hm : max p.speed q.speed ≤ 255 := Nat.max_le.mpr ⟨hp, hq⟩
    have hm' : ((max p.speed q.speed : ℕ) : ℤ) ≤ 255 := by exact_mod_cast hm
    exact le_trans hrv2 hm'
  have hv0 : (0 : ℚ) ≤ v := le_trans (Nat.cast_nonneg _) hlow
  refine ⟨?_, hspec ▸ hrv1, hspec ▸ hrv2⟩
  show asU8 (rustRound v) = (specDuty p q temp).toNat
  rw [hspec]
  unfold rustRound asU8
  rw [if_pos hv0, min_eq_right hr255, max_eq_right hr0]

lemma interpolate_right (p q : FanCurvePoint) (hpq : p.temp < q.temp)
    (hp : p.speed ≤ 255) (hq : q.speed ≤ 255) :
    interpolate p q (q.temp : ℚ) = q.speed := by
  have htq : (p.temp : ℚ) ≤ (q.temp : ℚ) := by exact_mod_cast hpq.le
  have h := (interpolate_eq_spec p q (q.temp : ℚ) hpq htq le_rfl hp hq).1
  rw [h, specDuty_right p q hpq, Int.toNat_natCast]


lemma calc_eight (p0 p1 p2 p3 p4 p5 p6 p7 : FanCurvePoint) (temp : ℚ)
    (ha0 : p0.temp < p1.temp) (ha1 : p1.temp < p2.temp) (ha2 : p2.temp < p3.temp)
    (ha3 : p3.temp < p4.temp) (ha4 : p4.temp < p5.temp) (ha5 : p5.temp < p6.temp)
    (ha6 : p6.temp < p7.temp)
    (hs0 : p0.speed ≤ 255) (hs1 : p1.speed ≤ 255) (hs2 : p2.speed ≤ 255)
    (hs3 : p3.speed ≤ 255) (hs4 : p4.speed ≤ 255) (hs5 : p5.speed ≤ 255)
    (hs6 : p6.speed ≤ 255) (hs7 : p7.speed ≤ 255) :
    (temp ≤ (p0.temp : ℚ) →
      FanDaemon.calculate_fan_speed ⟨[p0, p1, p2, p3, p4, p5, p6, p7]⟩ temp = p0.speed) ∧
    ((p7.temp : ℚ) ≤ temp →
      FanDaemon.calculate_fan_speed ⟨[p0, p1, p2, p3, p4, p5, p6, p7]⟩ temp = p7.speed) ∧
    ((p0.temp : ℚ) < temp → temp < (p7.temp : ℚ) →
      (calcLoop temp [p0, p1, p2, p3, p4, p5, p6, p7]).isSome = true) ∧
    (∀ pa pb : FanCurvePoint,
      ((pa, pb) = (p0, p1) ∨
       (pa, pb) = (p1, p2) ∨
       (pa, pb) = (p2, p3) ∨
       (pa, pb) = (p3, p4) ∨
       (pa, pb) = (p4, p5) ∨
       (pa, pb) = (p5, p6) ∨
       (pa, pb) = (p6, p7)) →
      (p0.temp : ℚ) < temp → temp < (p7.temp : ℚ) →
      (pa.temp : ℚ) ≤ temp → temp ≤ (pb.temp : ℚ) →
      FanDaemon.calculate_fan_speed ⟨[p0, p1, p2, p3, p4, p5, p6, p7]⟩ temp =
        (specDuty pa pb temp).toNat) ∧
    ((p0.temp : ℚ) < temp → temp < (p7.temp : ℚ) →
      ∃ pa pb : FanCurvePoint,
        ((pa, pb) = (p0, p1) ∨
       (pa, pb) = (p1, p2) ∨
       (pa, pb) = (p2, p3) ∨
       (pa, pb) = (p3, p4) ∨
       (pa, pb) = (p4, p5) ∨
       (pa, pb) = (p5, p6) ∨
       (pa, pb) = (p6, p7)) ∧
        (pa.temp : ℚ) ≤ temp ∧ temp ≤ (pb.temp : ℚ)) := by
  have hc0 : (p0.temp : ℚ) < (p1.temp : ℚ) := by exact_mod_cast ha0
  have hc1 : (p1.temp : ℚ) < (p2.temp : ℚ) := by exact_mod_cast ha1
  have hc2 : (p2.temp : ℚ) < (p3.temp : ℚ) := by exact_mod_cast ha2
  have hc3 : (p3.temp : ℚ) < (p4.temp : ℚ) := by exact_mod_cast ha3
  have hc4 : (p4.temp : ℚ) < (p5.temp : ℚ) := by exact_mod_cast ha4
  have hc5 : (p5.temp : ℚ) < (p6.temp : ℚ) := by exact_mod_cast ha5
  have hc6 : (p6.temp : ℚ) < (p7.temp : ℚ) := by exact_mod_cast ha6
  have hlast : ([p1, p2, p3, p4, p5, p6, p7].getLastD p0) = p7 := rfl
  refine ⟨?_, ?_, ?_, ?_, ?_⟩
  · intro h
    simp only [FanDaemon.calculate_fan_speed]
    rw [if_pos h]
  · intro h
    have hlow : ¬ (temp ≤ (p0.temp : ℚ)) := by push_neg; linarith
    simp only [FanDaemon.calculate_fan_speed]
    rw [if_neg hlow, hlast, if_pos h]
  · intro hlow hhigh
    rcases le_or_lt temp ((p1.temp : ℚ)) with hb | hb1
    · rw [calcLoop, if_pos ⟨hlow.le, hb⟩]
      rfl
    · rcases le_or_lt temp ((p2.temp : ℚ)) with hb | hb2
      · rw [calcLoop, if_neg (fun hc => absurd hc.2 (not_le.mpr hb1)), calcLoop, if_pos ⟨hb1.le, hb⟩]
        rfl
      · rcases le_or_lt temp ((p3.temp : ℚ)) with hb | hb3
        · rw [calcLoop, if_neg (fun hc => absurd hc.2 (not_le.mpr hb1)), calcLoop, if_neg (fun hc => absurd hc.2 (not_le.mpr hb2)), calcLoop, if_pos ⟨hb2.le, hb⟩]
          rfl
        · rcases le_or_lt temp ((p4.temp : ℚ)) with hb | hb4
          · rw [calcLoop, if_neg (fun hc => absurd hc.2 (not_le.mpr hb1)), calcLoop, if_neg (fun hc => absurd hc.2 (not_le.mpr hb2)), calcLoop, if_neg (fun hc => absurd hc.2 (not_le.mpr hb3)), calcLoop, if_pos ⟨hb3.le, hb⟩]
            rfl
          · rcases le_or_lt temp ((p5.temp : ℚ)) with hb | hb5
            · rw [calcLoop, if_neg (fun hc => absurd hc.2 (not_le.mpr hb1)), calcLoop, if_neg (fun hc => absurd hc.2 (not_le.mpr hb2)), calcLoop, if_neg (fun hc => absurd hc.2 (not_le.mpr hb3)), calcLoop, if_neg (fun hc => absurd hc.2 (not_le.mpr hb4)), calcLoop, if_pos ⟨hb4.le, hb⟩]
              rfl
            · rcases le_or_lt temp ((p6.temp : ℚ)) with hb | hb6
              · rw [calcLoop, if_neg (fun hc => absurd hc.2 (not_le.mpr hb1)), calcLoop, if_neg (fun hc => absurd hc.2 (not_le.mpr hb2)), calcLoop, if_neg (fun hc => absurd hc.2 (not_le.mpr hb3)), calcLoop, if_neg (fun hc => absurd hc.2 (not_le.mpr hb4)), calcLoop, if_neg (fun hc => absurd hc.2 (not_le.mpr hb5)), calcLoop, if_pos ⟨hb5.le, hb⟩]
                rfl
              · rw [calcLoop, if_neg (fun hc => absurd hc.2 (not_le.mpr hb1)), calcLoop, if_neg (fun hc => absurd hc.2 (not_le.mpr hb2)), calcLoop, if_neg (fun hc => absurd hc.2 (not_le.mpr hb3)), calcLoop, if_neg (fun hc => absurd hc.2 (not_le.mpr hb4)), calcLoop, if_neg (fun hc => absurd hc.2 (not_le.mpr hb5)), calcLoop, if_neg (fun hc => absurd hc.2 (not_le.mpr hb6)), calcLoop, if_pos ⟨hb6.le, hhigh.le⟩]
                rfl
  · intro pa pb hpair hlow hhigh h1 h2
    simp only [FanDaemon.calculate_fan_speed]
    rw [if_neg (not_le.mpr hlow), hlast, if_neg (not_le.mpr hhigh)]
    rcases hpair with hpp | hpp | hpp | hpp | hpp | hpp | hpp
    · rw [Prod.mk.injEq] at hpp
      obtain ⟨he1, he2⟩ := hpp
      subst he1
      subst he2
      rw [calcLoop, if_pos ⟨h1, h2⟩]
      simp only [Option.getD_some]
      exact (interpolate_eq_spec _ _ temp ha0 h1 h2 hs0 hs1).1
    · rw [Prod.mk.injEq] at hpp
      obtain ⟨he1, he2⟩ := hpp
      subst he1
      subst he2
      rcases lt_or_eq_of_le h1 with hlt | heq
      · rw [calcLoop, if_neg (fun hc => absurd hc.2 (not_le.mpr (by linarith))), calcLoop, if_pos ⟨h1, h2⟩]
        simp only [Option.getD_some]
        exact (interpolate_eq_spec _ _ temp ha1 h1 h2 hs1 hs2).1
      · rw [calcLoop, if_pos ⟨by linarith, by linarith⟩]
        simp only [Option.getD_some]
        rw [← heq, interpolate_right _ _ ha0 hs0 hs1, specDuty_left,
          Int.toNat_natCast]
    · rw [Prod.mk.injEq] at hpp
      obtain ⟨he1, he2⟩ := hpp
      subst he1
      subst he2
      rcases lt_or_eq_of_le h1 with hlt | heq
      · rw [calcLoop, if_neg (fun hc => absurd hc.2 (not_le.mpr (by linarith))), calcLoop, if_neg (fun hc => absurd hc.2 (not_le.mpr (by linarith))), calcLoop, if_pos ⟨h1, h2⟩]
        simp only [Option.getD_some]
        exact (interpolate_eq_spec _ _ temp ha2 h1 h2 hs2 hs3).1
      · rw [calcLoop, if_neg (fun hc => absurd hc.2 (not_le.mpr (by linarith))), calcLoop, if_pos ⟨by linarith, by linarith⟩]
        simp only [Option.getD_some]
        rw [← heq, interpolate_right _ _ ha1 hs1 hs2, specDuty_left,
          Int.toNat_natCast]
    · rw [Prod.mk.injEq] at hpp
      obtain ⟨he1, he2⟩ := hpp
      subst he1
      subst he2
      rcases lt_or_eq_of_le h1 with hlt | heq
      · rw [calcLoop, if_neg (fun hc => absurd hc.2 (not_le.mpr (by linarith))), calcLoop, if_neg (fun hc => absurd hc.2 (not_le.mpr (by linarith))), calcLoop, if_neg (fun hc => absurd hc.2 (not_le.mpr (by linarith))), calcLoop, if_pos ⟨h1, h2⟩]
        simp only [Option.getD_some]
        exact (interpolate_eq_spec _ _ temp ha3 h1 h2 hs3 hs4).1
      · rw [calcLoop, if_neg (fun hc => absurd hc.2 (not_le.mpr (by linarith))), calcLoop, if_neg (fun hc => absurd hc.2 (not_le.mpr (by linarith))), calcLoop, if_pos ⟨by linarith, by linarith⟩]
        simp only [Option.getD_some]
        rw [← heq, interpolate_right _ _ ha2 hs2 hs3, specDuty_left,
          Int.toNat_natCast]
    · rw [Prod.mk.injEq] at hpp
      obtain ⟨he1, he2⟩ := hpp
      subst he1
      subst he2
      rcases lt_or_eq_of_le h1 with hlt | heq
      · rw [calcLoop, if_neg (fun hc => absurd hc.2 (not_le.mpr (by linarith))), calcLoop, if_neg (fun hc => absurd hc.2 (not_le.mpr (by linarith))), calcLoop, if_neg (fun hc => absurd hc.2 (not_le.mpr (by linarith))), calcLoop, if_neg (fun hc => absurd hc.2 (not_le.mpr (by linarith))), calcLoop, if_pos ⟨h1, h2⟩]
        simp only [Option.getD_some]
        exact (interpolate_eq_spec _ _ temp ha4 h1 h2 hs4 hs5).1
      · rw [calcLoop, if_neg (fun hc => absurd hc.2 (not_le.mpr (by linarith))), calcLoop, if_neg (fun hc => absurd hc.2 (not_le.mpr (by linarith))), calcLoop, if_neg (fun hc => absurd hc.2 (not_le.mpr (by linarith))), calcLoop, if_pos ⟨by linarith, by linarith⟩]
        simp only [Option.getD_some]
        rw [← heq, interpolate_right _ _ ha3 hs3 hs4, specDuty_left,
          Int.toNat_natCast]
    · rw [Prod.mk.injEq] at hpp
      obtain ⟨he1, he2⟩ := hpp
      subst he1
      subst he2
      rcases lt_or_eq_of_le h1 with hlt | heq
      · rw [calcLoop, if_neg (fun hc => absurd hc.2 (not_le.mpr (by linarith))), calcLoop, if_neg (fun hc => absurd hc.2 (not_le.mpr (by linarith))), calcLoop, if_neg (fun hc => absurd hc.2 (not_le.mpr (by linarith))), calcLoop, if_neg (fun hc => absurd hc.2 (not_le.mpr (by linarith))), calcLoop, if_neg (fun hc => absurd hc.2 (not_le.mpr (by linarith))), calcLoop, if_pos ⟨h1, h2⟩]
        simp only [Option.getD_some]
        exact (interpolate_eq_spec _ _ temp ha5 h1 h2 hs5 hs6).1
      · rw [calcLoop, if_neg (fun hc => absurd hc.2 (not_le.mpr (by linarith))), calcLoop, if_neg (fun hc => absurd hc.2 (not_le.mpr (by linarith))), calcLoop, if_neg (fun hc => absurd hc.2 (not_le.mpr (by linarith))), calcLoop, if_neg (fun hc => absurd hc.2 (not_le.mpr (by linarith))), calcLoop, if_pos ⟨by linarith, by linarith⟩]
        simp only [Option.getD_some]
        rw [← heq, interpolate_right _ _ ha4 hs4 hs5, specDuty_left,
          Int.toNat_natCast]
    · rw [Prod.mk.injEq] at hpp
      obtain ⟨he1, he2⟩ := hpp
      subst he1
      subst he2
      rcases lt_or_eq_of_le h1 with hlt | heq
      · rw [calcLoop, if_neg (fun hc => absurd hc.2 (not_le.mpr (by linarith))), calcLoop, if_neg (fun hc => absurd hc.2 (not_le.mpr (by linarith))), calcLoop, if_neg (fun hc => absurd hc.2 (not_le.mpr (by linarith))), calcLoop, if_neg (fun hc => absurd hc.2 (not_le.mpr (by linarith))), calcLoop, if_neg (fun hc => absurd hc.2 (not_le.mpr (by linarith))), calcLoop, if_neg (fun hc => absurd hc.2 (not_le.mpr (by linarith))), calcLoop, if_pos ⟨h1, h2⟩]
        simp only [Option.getD_some]
        exact (interpolate_eq_spec _ _ temp ha6 h1 h2 hs6 hs7).1
      · rw [calcLoop, if_neg (fun hc => absurd hc.2 (not_le.mpr (by linarith))), calcLoop, if_neg (fun hc => absurd hc.2 (not_le.mpr (by linarith))), calcLoop, if_neg (fun hc => absurd hc.2 (not_le.mpr (by linarith))), calcLoop, if_neg (fun hc => absurd hc.2 (not_le.mpr (by linarith))), calcLoop, if_neg (fun hc => absurd hc.2 (not_le.mpr (by linarith))), calcLoop, if_pos ⟨by linarith, by linarith⟩]
        simp only [Option.getD_some]
        rw [← heq, interpolate_right _ _ ha5 hs5 hs6, specDuty_left,
          Int.toNat_natCast]
  · intro hlow hhigh
    rcases le_or_lt temp ((p1.temp : ℚ)) with hb | hb1
    · exact ⟨p0, p1, Or.inl rfl, hlow.le, hb⟩
    · rcases le_or_lt temp ((p2.temp : ℚ)) with hb | hb2
      · exact ⟨p1, p2, Or.inr (Or.inl rfl), hb1.le, hb⟩
      · rcases le_or_lt temp ((p3.temp : ℚ)) with hb | hb3
        · exact ⟨p2, p3, Or.inr (Or.inr (Or.inl rfl)), hb2.le, hb⟩
        · rcases le_or_lt temp ((p4.temp : ℚ)) with hb | hb4
          · exact ⟨p3, p4, Or.inr (Or.inr (Or.inr (Or.inl rfl))), hb3.le, hb⟩
          · rcases le_or_lt temp ((p5.temp : ℚ)) with hb | hb5
            · exact ⟨p4, p5, Or.inr (Or.inr (Or.inr (Or.inr (Or.inl rfl)))), hb4.le, hb⟩
            · rcases le_or_lt temp ((p6.temp : ℚ)) with hb | hb6
              · exact ⟨p5, p6, Or.inr (Or.inr (Or.inr (Or.inr (Or.inr (Or.inl rfl))))), hb5.le, hb⟩
              · exact ⟨p6, p7, Or.inr (Or.inr (Or.inr (Or.inr (Or.inr (Or.inr rfl))))), hb6.le, hhigh.le⟩

/-- C1: for an 8-point strictly-ascending curve (with `u8` duties),
`calculate_fan_speed` returns the first duty at or below the first
temperature, the last duty at or above the last temperature, and
otherwise the spec formula `p1.duty + (p2.duty - p1.duty) * (temp -
p1.temp) / (p2.temp - p1.temp)` rounded to the nearest integer, at any
(and hence the unique) bracketing adjacent pair, which always exists;
the default curve evaluates to 30 at 40, 100 at 85, 45 at 55, 30 at 30
and 100 at 95. `f32` arithmetic is modelled as exact arithmetic on ℚ. -/
theorem C1_fan_speed_interpolation (p0 p1 p2 p3 p4 p5 p6 p7 : FanCurvePoint) (temp : ℚ)
    (ha0 : p0.temp < p1.temp) (ha1 : p1.temp < p2.temp) (ha2 : p2.temp < p3.temp)
    (ha3 : p3.temp < p4.temp) (ha4 : p4.temp < p5.temp) (ha5 : p5.temp < p6.temp)
    (ha6 : p6.temp < p7.temp)
    (hs0 : p0.speed ≤ 255) (hs1 : p1.speed ≤ 255) (hs2 : p2.speed ≤ 255)
    (hs3 : p3.speed ≤ 255) (hs4 : p4.speed ≤ 255) (hs5 : p5.speed ≤ 255)
    (hs6 : p6.speed ≤ 255) (hs7 : p7.speed ≤ 255) :
    (temp ≤ (p0.temp : ℚ) →
      FanDaemon.calculate_fan_speed ⟨[p0, p1, p2, p3, p4, p5, p6, p7]⟩ temp = p0.speed) ∧
    ((p7.temp : ℚ) ≤ temp →
      FanDaemon.calculate_fan_speed ⟨[p0, p1, p2, p3, p4, p5, p6, p7]⟩ temp = p7.speed) ∧
    (∀ pa pb : FanCurvePoint,
      ((pa, pb) = (p0, p1) ∨ (pa, pb) = (p1, p2) ∨ (pa, pb) = (p2, p3) ∨
       (pa, pb) = (p3, p4) ∨ (pa, pb) = (p4, p5) ∨ (pa, pb) = (p5, p6) ∨
       (pa, pb) = (p6, p7)) →
      (p0.temp : ℚ) < temp → temp < (p7.temp : ℚ) →
      (pa.temp : ℚ) ≤ temp → temp ≤ (pb.temp : ℚ) →
      FanDaemon.calculate_fan_speed ⟨[p0, p1, p2, p3, p4, p5, p6, p7]⟩ temp =
        (specDuty pa pb temp).toNat) ∧
    ((p0.temp : ℚ) < temp → temp < (p7.temp : ℚ) →
      ∃ pa pb : FanCurvePoint,
        ((pa, pb) = (p0, p1) ∨ (pa, pb) = (p1, p2) ∨ (pa, pb) = (p2, p3) ∨
         (pa, pb) = (p3, p4) ∨ (pa, pb) = (p4, p5) ∨ (pa, pb) = (p5, p6) ∨
         (pa, pb) = (p6, p7)) ∧
        (pa.temp : ℚ) ≤ temp ∧ temp ≤ (pb.temp : ℚ)) ∧
    FanDaemon.calculate_fan_speed defaultCurve 40 = 30 ∧
    FanDaemon.calculate_fan_speed defaultCurve 85 = 100 ∧
    FanDaemon.calculate_fan_speed defaultCurve 55 = 45 ∧
    FanDaemon.calculate_fan_speed defaultCurve 30 = 30 ∧
    FanDaemon.calculate_fan_speed defaultCurve 95 = 100 := by
  obtain ⟨hA, hB, -, hD, hE⟩ := calc_eight p0 p1 p2 p3 p4 p5 p6 p7 temp
    ha0 ha1 ha2 ha3 ha4 ha5 ha6 hs0 hs1 hs2 hs3 hs4 hs5 hs6 hs7
  refine ⟨hA, hB, hD, hE, by decide, by decide, ?_, by decide, by decide⟩
  have h55 := (calc_eight ⟨40, 30⟩ ⟨50, 40⟩ ⟨60, 50⟩ ⟨65, 60⟩ ⟨70, 70⟩ ⟨75, 80⟩ ⟨80, 90⟩
    ⟨85, 100⟩ 55 (by decide) (by decide) (by decide) (by decide) (by decide) (by decide)
    (by decide) (by decide) (by decide) (by decide) (by decide) (by decide) (by decide)
    (by decide) (by decide)).2.2.2.1 ⟨50, 40⟩ ⟨60, 50⟩ (Or.inr (Or.inl rfl))
    (by norm_num) (by norm_num) (by norm_num) (by norm_num)
  show FanDaemon.calculate_fan_speed ⟨[⟨40, 30⟩, ⟨50, 40⟩, ⟨60, 50⟩, ⟨65, 60⟩,
    ⟨70, 70⟩, ⟨75, 80⟩, ⟨80, 90⟩, ⟨85, 100⟩]⟩ 55 = 45
  rw [h55]
  norm_num [specDuty]
  decide

/-- Witness for C1 at the default curve and temperature 55: the
ascending and `u8` hypotheses hold and the bracketing pair (50,40),
(60,50) determines the result 45. -/
theorem C1_fan_speed_interpolation_witness :
    ((40 : ℕ) < 50 ∧ (50 : ℕ) < 60 ∧ (30 : ℕ) ≤ 255) ∧
    FanDaemon.calculate_fan_speed defaultCurve 55 = 45 := by
  refine ⟨⟨by decide, by decide, by decide⟩, ?_⟩
  exact (C1_fan_speed_interpolation ⟨40, 30⟩ ⟨50, 40⟩ ⟨60, 50⟩ ⟨65, 60⟩ ⟨70, 70⟩
    ⟨75, 80⟩ ⟨80, 90⟩ ⟨85, 100⟩ 55 (by decide) (by decide) (by decide) (by decide)
    (by decide) (by decide) (by decide) (by decide) (by decide) (by decide) (by decide)
    (by decide) (by decide) (by decide) (by decide)).2.2.2.2.2.2.1

lemma validate_ok_facts (c : FanCurve) (h : c.validate = .ok ()) :
    c.points.length = 8 ∧ ascendingOk c.points = true ∧ ∀ p ∈ c.points, p.speed ≤ 100 := by
  unfold FanCurve.validate at h
  split_ifs at h with h1 h2 h3
  push_neg at h1
  have h2' : ascendingOk c.points = true := by
    revert h2; cases hA : ascendingOk c.points <;> simp
  have h3' : (c.points.all fun p => decide (p.speed ≤ 100)) = true := by
    revert h3; cases hA : c.points.all fun p => decide (p.speed ≤ 100) <;> simp
  rw [List.all_eq_true] at h3'
  exact ⟨h1, h2', fun p hp => of_decide_eq_true (h3' p hp)⟩

lemma list_eq_eight (l : List FanCurvePoint) (h : l.length = 8) :
    ∃ p0 p1 p2 p3 p4 p5 p6 p7, l = [p0, p1, p2, p3, p4, p5, p6, p7] := by
  obtain ⟨p0, l0, rfl⟩ := List.exists_of_length_succ l (show l.length = 7 + 1 from h)
  have h0 : l0.length = 7 := by simpa using h
  obtain ⟨p1, l1, rfl⟩ := List.exists_of_length_succ l0 (show l0.length = 6 + 1 from h0)
  have h1 : l1.length = 6 := by simpa using h0
  obtain ⟨p2, l2, rfl⟩ := List.exists_of_length_succ l1 (show l1.length = 5 + 1 from h1)
  have h2 : l2.length = 5 := by simpa using h1
  obtain ⟨p3, l3, rfl⟩ := List.exists_of_length_succ l2 (show l2.length = 4 + 1 from h2)
  have h3 : l3.length = 4 := by simpa using h2
  obtain ⟨p4, l4, rfl⟩ := List.exists_of_length_succ l3 (show l3.length = 3 + 1 from h3)
  have h4 : l4.length = 3 := by simpa using h3
  obtain ⟨p5, l5, rfl⟩ := List.exists_of_length_succ l4 (show l4.length = 2 + 1 from h4)
  have h5 : l5.length = 2 := by simpa using h4
  obtain ⟨p6, l6, rfl⟩ := List.exists_of_length_succ l5 (show l5.length = 1 + 1 from h5)
  have h6 : l6.length = 1 := by simpa using h5
  obtain ⟨p7, l7, rfl⟩ := List.exists_of_length_succ l6 (show l6.length = 0 + 1 from h6)
  have h7 : l7.length = 0 := by simpa using h6
  rw [List.length_eq_zero] at h7
  subst h7
  exact ⟨p0, p1, p2, p3, p4, p5, p6, p7, rfl⟩

/-- C10: for every curve accepted by `FanCurve::validate` and every
temperature, `calculate_fan_speed` returns through the below-range
clamp, the above-range clamp, or the bracket-interpolation branch (the
loop yields `some`, so the trailing fallback 50 is never used), and the
returned duty lies between the minimum and maximum speeds of the
curve's points (expressed as: some point's speed is below the result
and some point's speed is above it). -/
theorem C10_fan_speed_safety (c : FanCurve) (temp : ℚ) (hval : c.validate = .ok ()) :
    ((∃ pf, c.points.get? 0 = some pf ∧ temp ≤ (pf.temp : ℚ) ∧
        FanDaemon.calculate_fan_speed c temp = pf.speed) ∨
     (∃ pl, c.points.get? (c.points.length - 1) = some pl ∧ (pl.temp : ℚ) ≤ temp ∧
        FanDaemon.calculate_fan_speed c temp = pl.speed) ∨
     (∃ i pa pb, c.points.get? i = some pa ∧ c.points.get? (i + 1) = some pb ∧
        (pa.temp : ℚ) ≤ temp ∧ temp ≤ (pb.temp : ℚ) ∧
        (calcLoop temp c.points).isSome = true ∧
        FanDaemon.calculate_fan_speed c temp = (specDuty pa pb temp).toNat)) ∧
    (∃ plo ∈ c.points, plo.speed ≤ FanDaemon.calculate_fan_speed c temp) ∧
    (∃ phi ∈ c.points, FanDaemon.calculate_fan_speed c temp ≤ phi.speed) := by
  obtain ⟨hlen, hasc, hsp⟩ := validate_ok_facts c hval
  obtain ⟨p0, p1, p2, p3, p4, p5, p6, p7, hpts⟩ := list_eq_eight c.points hlen
  have hc : c = ⟨[p0, p1, p2, p3, p4, p5, p6, p7]⟩ := by
    cases c
    exact congrArg FanCurve.mk hpts
  subst hc
  obtain ⟨ha0, ha1, ha2, ha3, ha4, ha5, ha6⟩ :
      p0.temp < p1.temp ∧ p1.temp < p2.temp ∧ p2.temp < p3.temp ∧ p3.temp < p4.temp ∧
      p4.temp < p5.temp ∧ p5.temp < p6.temp ∧ p6.temp < p7.temp := by
    simpa [ascendingOk] using hasc
  have hsp0 : p0.speed ≤ 100 := hsp p0 (by simp)
  have hsp1 : p1.speed ≤ 100 := hsp p1 (by simp)
  have hsp2 : p2.speed ≤ 100 := hsp p2 (by simp)
  have hsp3 : p3.speed ≤ 100 := hsp p3 (by simp)
  have hsp4 : p4.speed ≤ 100 := hsp p4 (by simp)
  have hsp5 : p5.speed ≤ 100 := hsp p5 (by simp)
  have hsp6 : p6.speed ≤ 100 := hsp p6 (by simp)
  have hsp7 : p7.speed ≤ 100 := hsp p7 (by simp)
  have H := calc_eight p0 p1 p2 p3 p4 p5 p6 p7 temp ha0 ha1 ha2 ha3 ha4 ha5 ha6 (by omega) (by omega) (by omega) (by omega) (by omega) (by omega) (by omega) (by omega)
  rcases le_or_lt temp ((p0.temp : ℚ)) with hle | hlow
  · exact ⟨Or.inl ⟨p0, rfl, hle, H.1 hle⟩, ⟨p0, by simp, (H.1 hle).ge⟩,
      ⟨p0, by simp, (H.1 hle).le⟩⟩
  · rcases le_or_lt ((p7.temp : ℚ)) temp with hge | hhigh
    · exact ⟨Or.inr (Or.inl ⟨p7, rfl, hge, H.2.1 hge⟩), ⟨p7, by simp, (H.2.1 hge).ge⟩,
        ⟨p7, by simp, (H.2.1 hge).le⟩⟩
    · obtain ⟨pa, pb, hpair, h1, h2⟩ := H.2.2.2.2 hlow hhigh
      have hres := H.2.2.2.1 pa pb hpair hlow hhigh h1 h2
      have hsome := H.2.2.1 hlow hhigh
      rcases hpair with hpp | hpp | hpp | hpp | hpp | hpp | hpp
      · rw [Prod.mk.injEq] at hpp
        obtain ⟨he1, he2⟩ := hpp
        subst he1
        subst he2
        have hspec := interpolate_eq_spec _ _ temp ha0 h1 h2 (by omega) (by omega)
        have hlo := Int.toNat_le_toNat hspec.2.1
        have hhi := Int.toNat_le_toNat hspec.2.2
        rw [Int.toNat_natCast] at hlo hhi
        refine ⟨Or.inr (Or.inr ⟨0, pa, pb, rfl, rfl, h1, h2, hsome, hres⟩), ?_, ?_⟩
        · rcases le_total pa.speed pb.speed with hab | hab
          · exact ⟨pa, by simp, by rw [hres]; simpa [min_eq_left hab] using hlo⟩
          · exact ⟨pb, by simp, by rw [hres]; simpa [min_eq_right hab] using hlo⟩
        · rcases le_total pa.speed pb.speed with hab | hab
          · exact ⟨pb, by simp, by rw [hres]; simpa [max_eq_right hab] using hhi⟩
          · exact ⟨pa, by simp, by rw [hres]; simpa [max_eq_left hab] using hhi⟩
      · rw [Prod.mk.injEq] at hpp
        obtain ⟨he1, he2⟩ := hpp
        subst he1
        subst he2
        have hspec := interpolate_eq_spec _ _ temp ha1 h1 h2 (by omega) (by omega)
        have hlo := Int.toNat_le_toNat hspec.2.1
        have hhi := Int.toNat_le_toNat hspec.2.2
        rw [Int.toNat_natCast] at hlo hhi
        refine ⟨Or.inr (Or.inr ⟨1, pa, pb, rfl, rfl, h1, h2, hsome, hres⟩), ?_, ?_⟩
        · rcases le_total pa.speed pb.speed with hab | hab
          · exact ⟨pa, by simp, by rw [hres]; simpa [min_eq_left hab] using hlo⟩
          · exact ⟨pb, by simp, by rw [hres]; simpa [min_eq_right hab] using hlo⟩
        · rcases le_total pa.speed pb.speed with hab | hab
          · exact ⟨pb, by simp, by rw [hres]; simpa [max_eq_right hab] using hhi⟩
          · exact ⟨pa, by simp, by rw [hres]; simpa [max_eq_left hab] using hhi⟩
      · rw [Prod.mk.injEq] at hpp
        obtain ⟨he1, he2⟩ := hpp
        subst he1
        subst he2
        have hspec := interpolate_eq_spec _ _ temp ha2 h1 h2 (by omega) (by omega)
        have hlo := Int.toNat_le_toNat hspec.2.1
        have hhi := Int.toNat_le_toNat hspec.2.2
        rw [Int.toNat_natCast] at hlo hhi
        refine ⟨Or.inr (Or.inr ⟨2, pa, pb, rfl, rfl, h1, h2, hsome, hres⟩), ?_, ?_⟩
        · rcases le_total pa.speed pb.speed with hab | hab
          · exact ⟨pa, by simp, by rw [hres]; simpa [min_eq_left hab] using hlo⟩
          · exact ⟨pb, by simp, by rw [hres]; simpa [min_eq_right hab] using hlo⟩
        · rcases le_total pa.speed pb.speed with hab | hab
          · exact ⟨pb, by simp, by rw [hres]; simpa [max_eq_right hab] using hhi⟩
          · exact ⟨pa, by simp, by rw [hres]; simpa [max_eq_left hab] using hhi⟩
      · rw [Prod.mk.injEq] at hpp
        obtain ⟨he1, he2⟩ := hpp
        subst he1
        subst he2
        have hspec := interpolate_eq_spec _ _ temp ha3 h1 h2 (by omega) (by omega)
        have hlo := Int.toNat_le_toNat hspec.2.1
        have hhi := Int.toNat_le_toNat hspec.2.2
        rw [Int.toNat_natCast] at hlo hhi
        refine ⟨Or.inr (Or.inr ⟨3, pa, pb, rfl, rfl, h1, h2, hsome, hres⟩), ?_, ?_⟩
        · rcases le_total pa.speed pb.speed with hab | hab
          · exact ⟨pa, by simp, by rw [hres]; simpa [min_eq_left hab] using hlo⟩
          · exact ⟨pb, by simp, by rw [hres]; simpa [min_eq_right hab] using hlo⟩
        · rcases le_total pa.speed pb.speed with hab | hab
          · exact ⟨pb, by simp, by rw [hres]; simpa [max_eq_right hab] using hhi⟩
          · exact ⟨pa, by simp, by rw [hres]; simpa [max_eq_left hab] using hhi⟩
      · rw [Prod.mk.injEq] at hpp
        obtain ⟨he1, he2⟩ := hpp
        subst he1
        subst he2
        have hspec := interpolate_eq_spec _ _ temp ha4 h1 h2 (by omega) (by omega)
        have hlo := Int.toNat_le_toNat hspec.2.1
        have hhi := Int.toNat_le_toNat hspec.2.2
        rw [Int.toNat_natCast] at hlo hhi
        refine ⟨Or.inr (Or.inr ⟨4, pa, pb, rfl, rfl, h1, h2, hsome, hres⟩), ?_, ?_⟩
        · rcases le_total pa.speed pb.speed with hab | hab
          · exact ⟨pa, by simp, by rw [hres]; simpa [min_eq_left hab] using hlo⟩
          · exact ⟨pb, by simp, by rw [hres]; simpa [min_eq_right hab] using hlo⟩
        · rcases le_total pa.speed pb.speed with hab | hab
          · exact ⟨pb, by simp, by rw [hres]; simpa [max_eq_right hab] using hhi⟩
          · exact ⟨pa, by simp, by rw [hres]; simpa [max_eq_left hab] using hhi⟩
      · rw [Prod.mk.injEq] at hpp
        obtain ⟨he1, he2⟩ := hpp
        subst he1
        subst he2
        have hspec := interpolate_eq_spec _ _ temp ha5 h1 h2 (by omega) (by omega)
        have hlo := Int.toNat_le_toNat hspec.2.1
        have hhi := Int.toNat_le_toNat hspec.2.2
        rw [Int.toNat_natCast] at hlo hhi
        refine ⟨Or.inr (Or.inr ⟨5, pa, pb, rfl, rfl, h1, h2, hsome, hres⟩), ?_, ?_⟩
        · rcases le_total pa.speed pb.speed with hab | hab
          · exact ⟨pa, by simp, by rw [hres]; simpa [min_eq_left hab] using hlo⟩
          · exact ⟨pb, by simp, by rw [hres]; simpa [min_eq_right hab] using hlo⟩
        · rcases le_total pa.speed pb.speed with hab | hab
          · exact ⟨pb, by simp, by rw [hres]; simpa [max_eq_right hab] using hhi⟩
          · exact ⟨pa, by simp, by rw [hres]; simpa [max_eq_left hab] using hhi⟩
      · rw [Prod.mk.injEq] at hpp
        obtain ⟨he1, he2⟩ := hpp
        subst he1
        subst he2
        have hspec := interpolate_eq_spec _ _ temp ha6 h1 h2 (by omega) (by omega)
        have hlo := Int.toNat_le_toNat hspec.2.1
        have hhi := Int.toNat_le_toNat hspec.2.2
        rw [Int.toNat_natCast] at hlo hhi
        refine ⟨Or.inr (Or.inr ⟨6, pa, pb, rfl, rfl, h1, h2, hsome, hres⟩), ?_, ?_⟩
        · rcases le_total pa.speed pb.speed with hab | hab
          · exact ⟨pa, by simp, by rw [hres]; simpa [min_eq_left hab] using hlo⟩
          · exact ⟨pb, by simp, by rw [hres]; simpa [min_eq_right hab] using hlo⟩
        · rcases le_total pa.speed pb.speed with hab | hab
          · exact ⟨pb, by simp, by rw [hres]; simpa [max_eq_right hab] using hhi⟩
          · exact ⟨pa, by simp, by rw [hres]; simpa [max_eq_left hab] using hhi⟩

/-- Witness for C10 at the default curve and temperature 55. -/
theorem C10_fan_speed_safety_witness :
    FanCurve.validate defaultCurve = .ok () ∧
    (∃ plo ∈ defaultCurve.points, plo.speed ≤ FanDaemon.calculate_fan_speed defaultCurve 55) ∧
    (∃ phi ∈ defaultCurve.points, FanDaemon.calculate_fan_speed defaultCurve 55 ≤ phi.speed) := by
  have h := C10_fan_speed_safety defaultCurve 55 (by rfl)
  exact ⟨by rfl, h.2.1, h.2.2⟩

/-- Witness for C2: the default curve satisfies the validation
characterization (length extracted through the theorem). -/
theorem C2_fan_curve_validate_witness :
    defaultCurve.points.length = 8 :=
  ((C2_fan_curve_validate defaultCurve).mp (by rfl)).1

/-- Witness for C8: the concrete steam lookup extracted through the
theorem. -/
theorem C8_find_profile_for_app_witness :
    ProfileManager.find_profile_for_app ⟨[Profile.default_profile, pGaming], 0⟩
      "SteamBigPicture" = some 1 :=
  (C8_find_profile_for_app ⟨[Profile.default_profile, pGaming], 0⟩ "SteamBigPicture").2.2
